import Mathlib

/-!
Verification of the "two_sum_easy_monitor" scoring pipeline.

The Python sources (`src/enhanced.py`, `src/main.py`) are shallowly embedded
below.  Conventions of the embedding:

* Python floats are idealised as exact rationals (`ℚ`); every arithmetic
  operation of the scoring pipeline (`+`, `-`, `*`, `/`, `min`, `max`, `abs`,
  comparisons, `round`) is exact on the values the program manipulates.
* Calendar dates (ISO strings `YYYY-MM-DD` in the program) are modelled as
  naturals ordered chronologically; by the repository's own invariant the
  lexicographic order on the date strings coincides with chronological order,
  so nothing is lost.  "Yesterday" of date `t` is `t - 1`.
* The history dictionary `self.daily_indices` (a Python `dict` keyed by date)
  is modelled as an association list of `(Date × DayRec)` pairs kept sorted by
  key; `sorted(dict.keys())` is then the key list itself.  All observations the
  program makes of the dict (lookup by key, length, sum of the values) are
  insensitive to representation order, so this is a faithful model of the
  mapping.  Dict assignment `d[k] = v` is the ordered insert-or-replace
  `insertH`.
* The external fetch layer only delivers a `ProblemData` value (today's
  per-difficulty snapshot lists), so it is the input of the embedded functions.
  `datetime.now()` appears only through the current date and month, which
  become explicit parameters.
-/

namespace Recession

/-- Python's banker's rounding to an integer (`round` ties-to-even), on the
idealised rational values. -/
def rhe (x : ℚ) : ℤ :=
  let f := ⌊x⌋
  let r := x - f
  if r < 1/2 then f
  else if 1/2 < r then f + 1
  else if 2 ∣ f then f else f + 1

/-- Python's `round(x, n)`: round to `n` decimal places, ties to even. -/
def pyRound (x : ℚ) (n : ℕ) : ℚ :=
  (rhe (x * 10 ^ n) : ℚ) / 10 ^ n

/-- One entry of a `DailyRecord`'s `problems` list, as written by
`RecessionDashboard.collect_and_analyze`: slug, display name and the observed
total submission count. -/
structure SnapRec where
  slug : String
  name : String
  total_submission : ℕ
deriving DecidableEq, Repr

/-- One day's record in `recession_history.json` / `self.daily_indices`:
`{'index': ..., 'probability': ..., 'problems': [...]}`. -/
structure DayRec where
  index : ℚ
  probability : ℚ
  problems : List SnapRec
deriving DecidableEq, Repr

/-- Dates, chronologically ordered (see the header comment). -/
abbrev Date := ℕ

/-- The history dict `self.daily_indices`, as its sorted association list. -/
abbrev History := List (Date × DayRec)

/-- Key list of the history dict. -/
def keys (H : History) : List Date := H.map Prod.fst

/-- The dict representation invariant: keys strictly increasing (hence also
at most one `DailyRecord` per date). -/
def HistSorted (H : History) : Prop := List.Pairwise (· < ·) (keys H)

/-- Python `dict.get(d, default)` on the history. -/
def lookupH : History → Date → Option DayRec
  | [], _ => none
  | (k, v) :: t, d => if d = k then some v else lookupH t d

/-- Dict assignment `self.daily_indices[d] = r`: replace the record of an
existing date, otherwise insert at the ordered position. -/
def insertH : History → Date → DayRec → History
  | [], d, r => [(d, r)]
  | (k, v) :: t, d, r =>
    if d < k then (d, r) :: (k, v) :: t
    else if d = k then (d, r) :: t
    else (k, v) :: insertH t d r

/-- One tracked problem's fetched data as consumed by the calculator:
`slug`, `name`, configured `weight` and the fetched `total_submission`
(a non-negative integer counter). -/
structure ProbEntry where
  slug : String
  name : String
  weight : ℚ
  total_submission : ℕ
deriving DecidableEq, Repr

/-- The `problem_data` dict built by `collect_all_problems`: the three
difficulty tiers (the `timestamp` key, skipped by every consumer, is not
modelled). -/
structure ProblemData where
  easy : List ProbEntry
  medium : List ProbEntry
  hard : List ProbEntry
deriving DecidableEq, Repr

/-- The `{'slug':…, 'name':…, 'total_submission':…}` projection stored into
the day's record by `collect_and_analyze` (iterating easy, medium, hard). -/
def snapshotsOf (pd : ProblemData) : List SnapRec :=
  (pd.easy.map fun p => ⟨p.slug, p.name, p.total_submission⟩) ++
  (pd.medium.map fun p => ⟨p.slug, p.name, p.total_submission⟩) ++
  (pd.hard.map fun p => ⟨p.slug, p.name, p.total_submission⟩)

/-- The `yesterday_total` scan of `calculate_weighted_index`: look `today - 1`
up in the history and take the first same-slug snapshot's `total_submission`,
defaulting to `0` at every step. -/
def yesterdayTotalOf (H : History) (today : Date) (slug : String) : ℕ :=
  match lookupH H (today - 1) with
  | none => 0
  | some yrec =>
    match yrec.problems.find? (fun p => p.slug == slug) with
    | none => 0
    | some p => p.total_submission

/-- `increment = problem['total_submission'] - yesterday_total if
yesterday_total > 0 else problem['total_submission'] // 100` (Python `//` on
the non-negative counters is `Nat` floor division). -/
def incrementOf (H : History) (today : Date) (p : ProbEntry) : ℤ :=
  let yesterday_total := yesterdayTotalOf H today p.slug
  if 0 < yesterday_total then (p.total_submission : ℤ) - (yesterday_total : ℤ)
  else ((p.total_submission / 100 : ℕ) : ℤ)

/-- `problem_score = increment * problem['weight'] * difficulty_weight`. -/
def problem_score (H : History) (today : Date) (dw : ℚ) (p : ProbEntry) : ℚ :=
  (incrementOf H today p : ℚ) * p.weight * dw

/-- Result of `calculate_weighted_index` (the per-problem `details` map is not
needed by any claim and is not modelled; `problem_score` above is exactly the
`score` entry it would hold). -/
structure WeightedResult where
  index : ℚ
  raw_score : ℚ
deriving DecidableEq, Repr

/-- `RecessionIndexCalculator.calculate_weighted_index`: per difficulty tier
(difficulty weights hard `1.5`, medium `1.2`, easy `1.0`) accumulate
`problem_score` over the tier's problems, sum the tiers, and normalise by
`1_000_000`. -/
def calculate_weighted_index (H : History) (today : Date) (pd : ProblemData) :
    WeightedResult :=
  let tier := fun (dw : ℚ) (problems : List ProbEntry) =>
    problems.foldl (fun acc p => acc + problem_score H today dw p) 0
  let total_score :=
    tier 1 pd.easy + tier (6/5) pd.medium + tier (3/2) pd.hard
  { index := total_score / 1000000, raw_score := total_score }

/-- `RecessionIndexCalculator.analyze_seasonal_pattern`, as a function of the
current calendar month (`datetime.now().month` in the source): hiring seasons
are the month lists `[3, 4]` and `[9, 10]`. -/
def analyze_seasonal_pattern (month : ℕ) : ℚ × String :=
  if month ∈ ([3, 4] : List ℕ) ∨ month ∈ ([9, 10] : List ℕ) then
    (13/10, "求职旺季")
  else
    (4/5, "求职淡季")

/-- The first-difference loop `for i in range(1, len(xs)):
out.append(xs[i] - xs[i-1])`. -/
def diffs : List ℚ → List ℚ
  | [] => []
  | [_] => []
  | a :: b :: t => (b - a) :: diffs (b :: t)

/-- Result of `calculate_acceleration`. -/
structure AccelResult where
  acceleration : ℚ
  trend : String
  severity : String
deriving DecidableEq, Repr

/-- `RecessionIndexCalculator.calculate_acceleration`: `None` on fewer than
`days` recorded dates; otherwise average the second differences of the last
`days` base-index values (Python `indices[-days:]` is the whole list when
`days = 0`, the last `days` elements otherwise) and classify.  The history
being represented sorted, `sorted(keys)` is the key list itself. -/
def calculate_acceleration (H : History) (days : ℕ) : Option AccelResult :=
  if H.length < days then none
  else
    let idxs := H.map fun p => p.2.index
    let indices := if days = 0 then idxs else idxs.drop (idxs.length - days)
    let first_derivative := diffs indices
    let second_derivative := diffs first_derivative
    let avg_acceleration : ℚ :=
      if second_derivative = [] then 0
      else second_derivative.sum / (second_derivative.length : ℚ)
    if 1/2 < avg_acceleration then some ⟨avg_acceleration, "加速上升", "严重"⟩
    else if 1/10 < avg_acceleration then some ⟨avg_acceleration, "缓慢上升", "关注"⟩
    else if -(1/10) < avg_acceleration then some ⟨avg_acceleration, "平稳", "正常"⟩
    else some ⟨avg_acceleration, "下降", "好转"⟩

/-- The five risk levels with their fixed conclusion and action strings, in
threshold order (the static lookup table of the level classification). -/
def levelTable : List (String × String × String) :=
  [("高危", "裁员风险极高，市场异常活跃", "立即关注市场动态，做好应急预案"),
   ("预警", "裁员风险较高，需要警惕", "保持关注，适当调整招聘计划"),
   ("关注", "中等风险，正常波动范围内", "定期监控，维持现状"),
   ("低风险", "市场相对平稳", "正常运营，可适当招聘"),
   ("安全", "市场冷清，风险较低", "适合储备人才，等待时机")]

/-- The `if score > 80 … elif … else` chain of
`calculate_recession_probability` choosing level, conclusion and action. -/
def riskLevel (score : ℚ) : String × String × String :=
  if 80 < score then ("高危", "裁员风险极高，市场异常活跃", "立即关注市场动态，做好应急预案")
  else if 60 < score then ("预警", "裁员风险较高，需要警惕", "保持关注，适当调整招聘计划")
  else if 40 < score then ("关注", "中等风险，正常波动范围内", "定期监控，维持现状")
  else if 20 < score then ("低风险", "市场相对平稳", "正常运营，可适当招聘")
  else ("安全", "市场冷清，风险较低", "适合储备人才，等待时机")

/-- The local `score` variable of `calculate_recession_probability` after the
final clamp `min(max(score * seasonal_factor, 0), 100)`: base term, optional
acceleration term (added only for strictly positive acceleration), historical
comparison term (only on a non-empty history with positive average index),
then the seasonal scaling and the clamp. -/
def recessionScore (H : History) (today : Date) (pd : ProblemData) (month : ℕ) : ℚ :=
  let base_index := (calculate_weighted_index H today pd).index
  let seasonal_factor := (analyze_seasonal_pattern month).1
  let acceleration_data := calculate_acceleration H 14
  let s1 := min (base_index * 40) 40
  let s2 :=
    match acceleration_data with
    | none => s1
    | some a =>
      if 0 < a.acceleration then s1 + min (max (|a.acceleration| * 20) 0) 30 else s1
  let s3 :=
    if 0 < H.length then
      let indices := H.map fun p => p.2.index
      let avg_index := indices.sum / (indices.length : ℚ)
      if 0 < avg_index then s2 + min (base_index / avg_index * 20) 20 else s2
    else s2
  min (max (s3 * seasonal_factor) 0) 100

/-- The result dict of `calculate_recession_probability` (the `details` map and
the timestamp are not modelled; no claim touches them). -/
structure RiskResult where
  probability : ℚ
  level : String
  conclusion : String
  action : String
  base_index : ℚ
  seasonal_factor : ℚ
  season_desc : String
  acceleration : Option AccelResult
deriving DecidableEq, Repr

/-- `RecessionIndexCalculator.calculate_recession_probability`: the score of
`recessionScore`, classified by `riskLevel`; the reported probability is the
score rounded to 1 decimal place and the reported base index the weighted
index rounded to 2 decimal places. -/
def calculate_recession_probability (H : History) (today : Date)
    (pd : ProblemData) (month : ℕ) : RiskResult :=
  let weighted_result := calculate_weighted_index H today pd
  let sp := analyze_seasonal_pattern month
  let acceleration_data := calculate_acceleration H 14
  let score := recessionScore H today pd month
  let lca := riskLevel score
  { probability := pyRound score 1
    level := lca.1
    conclusion := lca.2.1
    action := lca.2.2
    base_index := pyRound weighted_result.index 2
    seasonal_factor := sp.1
    season_desc := sp.2
    acceleration := acceleration_data }

/-- Observable log events of `save_history` (`logger.info` on success,
`logger.error` on a caught write exception). -/
inductive LogEvent where
  | savedOk : LogEvent
  | saveFailed : LogEvent
deriving DecidableEq, Repr

/-- `RecessionIndexCalculator.save_history`: attempt the durable write; a
failing write raises inside the `try`, is caught, and is only logged.  The
function mutates nothing and returns nothing either way; `writeOk` is the
outcome of the external disk write. -/
def save_history (writeOk : Bool) (_data : History) : List LogEvent :=
  if writeOk then [LogEvent.savedOk] else [LogEvent.saveFailed]

/-- `RecessionDashboard.collect_and_analyze` (state-passing form): compute the
risk result from the prior history, overwrite today's record (rounded base
index, rounded probability, the day's snapshot list), attempt the durable
write, and return the result.  The returned triple is (returned result,
in-memory history after the cycle, log of the write attempt). -/
def collect_and_analyze (writeOk : Bool) (H : History) (pd : ProblemData)
    (today : Date) (month : ℕ) : RiskResult × History × List LogEvent :=
  let result := calculate_recession_probability H today pd month
  let record : DayRec :=
    { index := result.base_index
      probability := result.probability
      problems := snapshotsOf pd }
  let H2 := insertH H today record
  (result, H2, save_history writeOk H2)

/-! ### Claim-side formulations

Definitions below transcribe the wording of the specification (for refinement
comparisons against the source-derived definitions above); each doc comment
says which sentence it follows. -/

/-- Spec §4.4: `base term = min(base_index × 40, 40)`. -/
def baseTerm (b : ℚ) : ℚ := min (b * 40) 40

/-- Spec §4.4: `acceleration term = min(max(|acceleration| × 20, 0), 30)`,
added only if the acceleration is strictly positive; absent acceleration
contributes zero. -/
def accTerm : Option AccelResult → ℚ
  | none => 0
  | some a => if 0 < a.acceleration then min (max (|a.acceleration| * 20) 0) 30 else 0

/-- Spec §4.4: historical term — if the history is non-empty and
`avg_index = mean(all recorded base indices)` is strictly positive, add
`min((base_index / avg_index) × 20, 20)`; otherwise zero. -/
def histTerm (H : History) (b : ℚ) : ℚ :=
  let indices := H.map fun p => p.2.index
  let avg_index := indices.sum / (indices.length : ℚ)
  if H ≠ [] ∧ 0 < avg_index then min (b / avg_index * 20) 20 else 0

/-- The claim C2 increment rule taken literally: "if a same-slug snapshot
exists in yesterday's DailyRecord then increment = today.total_submission −
yesterday.total_submission, otherwise increment = today.total_submission /
100" (true division). -/
def spec_increment (H : History) (today : Date) (p : ProbEntry) : ℚ :=
  match lookupH H (today - 1) with
  | some yrec =>
    match yrec.problems.find? (fun s => s.slug == p.slug) with
    | some s => (p.total_submission : ℚ) - (s.total_submission : ℚ)
    | none => (p.total_submission : ℚ) / 100
  | none => (p.total_submission : ℚ) / 100

/-- The base index claim C2 dictates: sum of
`spec_increment × weight × difficulty_weight` over all problems, divided by
`1_000_000`. -/
def spec_weighted_index (H : History) (today : Date) (pd : ProblemData) : ℚ :=
  ((pd.easy.map fun p => spec_increment H today p * p.weight * 1).sum
    + (pd.medium.map fun p => spec_increment H today p * p.weight * (6/5)).sum
    + (pd.hard.map fun p => spec_increment H today p * p.weight * (3/2)).sum)
    / 1000000

/-- The amended increment rule (what the code actually implements, stated in
the claim's style): a same-slug snapshot of yesterday with strictly positive
recorded `total_submission` gives the difference, every other case the integer
floor division `today.total_submission // 100`. -/
def amended_increment (H : History) (today : Date) (p : ProbEntry) : ℚ :=
  match lookupH H (today - 1) with
  | some yrec =>
    match yrec.problems.find? (fun s => s.slug == p.slug) with
    | some s =>
      if 0 < s.total_submission then
        (p.total_submission : ℚ) - (s.total_submission : ℚ)
      else ((p.total_submission / 100 : ℕ) : ℚ)
    | none => ((p.total_submission / 100 : ℕ) : ℚ)
  | none => ((p.total_submission / 100 : ℕ) : ℚ)

/-- Spec §8: a history of exactly `days` base indices that "rise by exactly
`c` each day" — the arithmetic progression `a, a+c, a+2c, …` of length `n`. -/
def linSeq (a c : ℚ) : ℕ → List ℚ
  | 0 => []
  | n + 1 => a :: linSeq (a + c) c n

/-! ### General lemmas about the embedded operations -/

theorem floor_le_rhe (x : ℚ) : ⌊x⌋ ≤ rhe x := by
  unfold rhe
  dsimp only
  split_ifs <;> omega

theorem le_rhe_of_le {B : ℤ} {x : ℚ} (h : (B : ℚ) ≤ x) : B ≤ rhe x :=
  le_trans (Int.le_floor.mpr h) (floor_le_rhe x)

theorem rhe_le_of_le {x : ℚ} {B : ℤ} (h : x ≤ (B : ℚ)) : rhe x ≤ B := by
  have hf : ⌊x⌋ ≤ B := by
    have := Int.floor_le_floor h
    simpa using this
  unfold rhe
  dsimp only
  split_ifs with h1 h2 h3
  · exact hf
  · have hx2 : (⌊x⌋ : ℚ) + 1 / 2 < x := by linarith
    have hq : (⌊x⌋ : ℚ) < (B : ℚ) := by linarith
    have : ⌊x⌋ < B := by exact_mod_cast hq
    omega
  · exact hf
  · have h4 : x - ⌊x⌋ = 1 / 2 := le_antisymm (not_lt.mp h2) (not_lt.mp h1)
    have hq : (⌊x⌋ : ℚ) < (B : ℚ) := by linarith
    have : ⌊x⌋ < B := by exact_mod_cast hq
    omega

theorem pyRound_nonneg {x : ℚ} (n : ℕ) (hx : 0 ≤ x) : 0 ≤ pyRound x n := by
  unfold pyRound
  apply div_nonneg _ (by positivity)
  have : (0 : ℤ) ≤ rhe (x * 10 ^ n) := le_rhe_of_le (by positivity)
  exact_mod_cast this

theorem pyRound_le {x : ℚ} {B : ℕ} (n : ℕ) (hx : x ≤ (B : ℚ)) : pyRound x n ≤ B := by
  unfold pyRound
  rw [div_le_iff₀ (by positivity)]
  have h1 : x * 10 ^ n ≤ ((B * 10 ^ n : ℤ) : ℚ) := by
    push_cast
    exact mul_le_mul_of_nonneg_right hx (by positivity)
  have h2 : rhe (x * 10 ^ n) ≤ (B * 10 ^ n : ℤ) := rhe_le_of_le h1
  calc (rhe (x * 10 ^ n) : ℚ) ≤ ((B * 10 ^ n : ℤ) : ℚ) := by exact_mod_cast h2
    _ = (B : ℚ) * 10 ^ n := by push_cast; ring

theorem foldl_add_eq {α : Type} (f : α → ℚ) :
    ∀ (l : List α) (a : ℚ), l.foldl (fun acc p => acc + f p) a = a + (l.map f).sum
  | [], a => by simp
  | x :: t, a => by
    simp only [List.foldl_cons, List.map_cons, List.sum_cons]
    rw [foldl_add_eq f t]
    ring

theorem diffs_eq_zipWith :
    ∀ xs : List ℚ, diffs xs = List.zipWith (fun a b => b - a) xs xs.tail
  | [] => rfl
  | [_] => rfl
  | a :: b :: t => by
    show (b - a) :: diffs (b :: t) = (b - a) :: List.zipWith _ (b :: t) t
    rw [diffs_eq_zipWith (b :: t)]
    rfl

theorem diffs_length : ∀ xs : List ℚ, (diffs xs).length = xs.length - 1
  | [] => rfl
  | [_] => rfl
  | a :: b :: t => by
    show ((b - a) :: diffs (b :: t)).length = _
    simp [diffs_length (b :: t)]

theorem diffs_replicate (c : ℚ) :
    ∀ n : ℕ, diffs (List.replicate n c) = List.replicate (n - 1) 0
  | 0 => rfl
  | 1 => rfl
  | n + 2 => by
    have ih := diffs_replicate c (n + 1)
    show diffs (c :: List.replicate (n + 1) c) = List.replicate (n + 1) 0
    rw [List.replicate_succ (n := n)]
    show (c - c) :: diffs (c :: List.replicate n c) = List.replicate (n + 1) 0
    rw [← List.replicate_succ (n := n), ih, List.replicate_succ]
    simp

theorem linSeq_length (c : ℚ) : ∀ (n : ℕ) (a : ℚ), (linSeq a c n).length = n
  | 0, _ => rfl
  | n + 1, a => by
    show (a :: linSeq (a + c) c n).length = n + 1
    simp [linSeq_length c n]

theorem diffs_linSeq (c : ℚ) :
    ∀ (n : ℕ) (a : ℚ), diffs (linSeq a c n) = List.replicate (n - 1) c
  | 0, _ => rfl
  | 1, _ => rfl
  | n + 2, a => by
    have ih := diffs_linSeq c (n + 1) (a + c)
    show diffs (a :: linSeq (a + c) c (n + 1)) = List.replicate (n + 1) c
    rw [show linSeq (a + c) c (n + 1) = (a + c) :: linSeq (a + c + c) c n from rfl] at ih ⊢
    show (a + c - a) :: diffs ((a + c) :: linSeq (a + c + c) c n) = _
    rw [ih, List.replicate_succ]
    congr 1
    ring

theorem lookupH_insertH_self (d : Date) (r : DayRec) :
    ∀ H : History, lookupH (insertH H d r) d = some r
  | [] => by simp [insertH, lookupH]
  | (k, v) :: t => by
    unfold insertH
    split_ifs with h1 h2
    · simp [lookupH]
    · simp [lookupH]
    · have hne : d ≠ k := h2
      simp [lookupH, hne, lookupH_insertH_self d r t]

theorem mem_keys_insertH {x d : Date} (r : DayRec) :
    ∀ H : History, x ∈ keys (insertH H d r) → x = d ∨ x ∈ keys H
  | [] => by simp [insertH, keys]
  | (k, v) :: t => by
    intro hx
    unfold insertH at hx
    split_ifs at hx with h1 h2
    · simp only [keys, List.map_cons, List.mem_cons] at hx ⊢
      tauto
    · simp only [keys, List.map_cons, List.mem_cons] at hx ⊢
      tauto
    · simp only [keys, List.map_cons, List.mem_cons] at hx ⊢
      rcases hx with rfl | hx
      · tauto
      · have := mem_keys_insertH r t hx
        simp only [keys] at this
        tauto

theorem mem_keys_insertH_self (d : Date) (r : DayRec) :
    ∀ H : History, d ∈ keys (insertH H d r)
  | [] => by simp [insertH, keys]
  | (k, v) :: t => by
    unfold insertH
    split_ifs with h1 h2
    · simp [keys]
    · simp [keys]
    · simp only [keys, List.map_cons, List.mem_cons]
      exact Or.inr (mem_keys_insertH_self d r t)

theorem sorted_insertH (d : Date) (r : DayRec) :
    ∀ H : History, HistSorted H → HistSorted (insertH H d r)
  | [], _ => by simp [insertH, HistSorted, keys]
  | (k, v) :: t, hs => by
    have hk : ∀ y ∈ keys t, k < y := by
      intro y hy
      exact (List.pairwise_cons.mp hs).1 y hy
    have ht : HistSorted t := (List.pairwise_cons.mp hs).2
    unfold insertH
    split_ifs with h1 h2
    · refine List.pairwise_cons.mpr ⟨?_, hs⟩
      intro y hy
      simp only [keys, List.map_cons, List.mem_cons] at hy
      rcases hy with rfl | hy
      · exact h1
      · exact lt_trans h1 (hk y hy)
    · subst h2
      exact List.pairwise_cons.mpr ⟨hk, ht⟩
    · have hkd : k < d := (not_lt.mp h1).lt_of_ne (Ne.symm h2)
      refine List.pairwise_cons.mpr ⟨?_, sorted_insertH d r t ht⟩
      intro y hy
      rcases mem_keys_insertH r t hy with rfl | hy
      · exact hkd
      · exact hk y hy

theorem length_insertH_mem (d : Date) (r : DayRec) :
    ∀ H : History, HistSorted H → d ∈ keys H → (insertH H d r).length = H.length
  | [], _, hm => by simp [keys] at hm
  | (k, v) :: t, hs, hm => by
    have hk : ∀ y ∈ keys t, k < y := by
      intro y hy
      exact (List.pairwise_cons.mp hs).1 y hy
    have ht : HistSorted t := (List.pairwise_cons.mp hs).2
    simp only [keys, List.map_cons, List.mem_cons] at hm
    unfold insertH
    split_ifs with h1 h2
    · exfalso
      rcases hm with rfl | hm
      · exact lt_irrefl d h1
      · exact absurd (hk d hm) (lt_asymm h1)
    · simp
    · have hmt : d ∈ keys t := by
        rcases hm with rfl | hm
        · exact absurd rfl h2
        · exact hm
      simp [length_insertH_mem d r t ht hmt]

theorem recessionScore_bounds (H : History) (t : Date) (pd : ProblemData) (m : ℕ) :
    0 ≤ recessionScore H t pd m ∧ recessionScore H t pd m ≤ 100 := by
  unfold recessionScore
  refine ⟨le_min (le_max_right _ _) (by norm_num), min_le_right _ _⟩

/-! ### Claims -/

/-- C9: the seasonal adjuster is a pure function of the calendar month.  For
months 3, 4, 9 and 10 it returns exactly factor 1.3 (= 13/10) with the
hiring-season label, and for every other month exactly factor 0.8 (= 4/5)
with the off-season label. -/
theorem c9_seasonal_factor (month : ℕ) :
    analyze_seasonal_pattern month =
      if month = 3 ∨ month = 4 ∨ month = 9 ∨ month = 10 then ((13 : ℚ)/10, "求职旺季")
      else ((4 : ℚ)/5, "求职淡季") := by
  unfold analyze_seasonal_pattern
  have hcond : (month ∈ ([3, 4] : List ℕ) ∨ month ∈ ([9, 10] : List ℕ)) ↔
      (month = 3 ∨ month = 4 ∨ month = 9 ∨ month = 10) := by
    simp only [List.mem_cons, List.mem_singleton, List.not_mem_nil, or_false]
    tauto
  simp only [hcond]

/-- C4: for every combination of inputs — history (hence base index of any
sign and acceleration present or absent) and month (hence any seasonal
factor) — the risk probability field of the returned result lies in the
closed interval [0, 100]. -/
theorem c4_probability_in_range (H : History) (t : Date) (pd : ProblemData) (m : ℕ) :
    0 ≤ (calculate_recession_probability H t pd m).probability ∧
      (calculate_recession_probability H t pd m).probability ≤ 100 := by
  have hprob : (calculate_recession_probability H t pd m).probability
      = pyRound (recessionScore H t pd m) 1 := rfl
  obtain ⟨h0, h100⟩ := recessionScore_bounds H t pd m
  constructor
  · rw [hprob]
    exact pyRound_nonneg 1 h0
  · rw [hprob]
    have := pyRound_le (B := 100) 1 (x := recessionScore H t pd m) (by exact_mod_cast h100)
    simpa using this

/-- C5: the trend analyzer returns no acceleration result exactly when the
history has fewer than `days` recorded dates (a valid neutral state); and on
a history whose base indices form an arithmetic progression over exactly
`days` dates (all second differences zero) it returns acceleration 0,
classified trend "平稳" (flat) with severity "正常" (normal). -/
theorem c5_insufficient_and_linear :
    (∀ (H : History) (days : ℕ), calculate_acceleration H days = none ↔ H.length < days) ∧
    (∀ (H : History) (days : ℕ) (a c : ℚ),
      H.map (fun p => p.2.index) = linSeq a c days →
      calculate_acceleration H days = some ⟨0, "平稳", "正常"⟩) := by
  constructor
  · intro H days
    unfold calculate_acceleration
    by_cases h : H.length < days
    · simp [h]
    · rw [if_neg h]
      simp only [h, iff_false]
      split_ifs <;> simp
  · intro H days a c hmap
    have hlen : H.length = days := by
      have := congrArg List.length hmap
      simpa [linSeq_length] using this
    unfold calculate_acceleration
    rw [if_neg (by omega)]
    simp only [hmap]
    by_cases h0 : days = 0
    · subst h0
      simp only [linSeq, if_pos rfl]
      norm_num [diffs]
    · rw [if_neg h0, linSeq_length, Nat.sub_self, List.drop_zero, diffs_linSeq,
        diffs_replicate]
      have hsum : (List.replicate (days - 1 - 1) (0 : ℚ)).sum = 0 := by simp
      have havg : (if List.replicate (days - 1 - 1) (0 : ℚ) = [] then (0 : ℚ)
          else (List.replicate (days - 1 - 1) (0 : ℚ)).sum
            / ((List.replicate (days - 1 - 1) (0 : ℚ)).length : ℚ)) = 0 := by
        split_ifs with he
        · rfl
        · rw [hsum, zero_div]
      rw [havg]
      norm_num

/-- C6: the risk level is determined from the final clamped score by
exclusive lower bounds 80/60/40/20, each level carrying its fixed conclusion
and action from the static five-entry table; a score exactly equal to a
boundary falls into the lower level; and the returned result's level,
conclusion and action are exactly this classification of the final score. -/
theorem c6_risk_level_thresholds :
    (∀ s : ℚ,
      riskLevel s ∈ levelTable ∧
      (riskLevel s = ("高危", "裁员风险极高，市场异常活跃", "立即关注市场动态，做好应急预案") ↔ 80 < s) ∧
      (riskLevel s = ("预警", "裁员风险较高，需要警惕", "保持关注，适当调整招聘计划") ↔ 60 < s ∧ s ≤ 80) ∧
      (riskLevel s = ("关注", "中等风险，正常波动范围内", "定期监控，维持现状") ↔ 40 < s ∧ s ≤ 60) ∧
      (riskLevel s = ("低风险", "市场相对平稳", "正常运营，可适当招聘") ↔ 20 < s ∧ s ≤ 40) ∧
      (riskLevel s = ("安全", "市场冷清，风险较低", "适合储备人才，等待时机") ↔ s ≤ 20)) ∧
    riskLevel 80 = ("预警", "裁员风险较高，需要警惕", "保持关注，适当调整招聘计划") ∧
    riskLevel 60 = ("关注", "中等风险，正常波动范围内", "定期监控，维持现状") ∧
    riskLevel 40 = ("低风险", "市场相对平稳", "正常运营，可适当招聘") ∧
    riskLevel 20 = ("安全", "市场冷清，风险较低", "适合储备人才，等待时机") ∧
    (∀ (H : History) (t : Date) (pd : ProblemData) (m : ℕ),
      ((calculate_recession_probability H t pd m).level,
       (calculate_recession_probability H t pd m).conclusion,
       (calculate_recession_probability H t pd m).action)
        = riskLevel (recessionScore H t pd m)) := by
  refine ⟨?_, by norm_num [riskLevel], by norm_num [riskLevel],
    by norm_num [riskLevel], by norm_num [riskLevel], fun _ _ _ _ => rfl⟩
  intro s
  unfold riskLevel
  split_ifs with h1 h2 h3 h4 <;>
    refine ⟨by simp [levelTable], ?_, ?_, ?_, ?_, ?_⟩ <;>
      constructor <;> intro h <;>
        first
          | rfl
          | exact absurd h (by decide)
          | assumption
          | (refine ⟨by linarith, by linarith⟩)
          | (obtain ⟨h5, h6⟩ := h; exfalso; linarith)
          | (exfalso; linarith)
          | linarith

/-- Witness for C5: three recorded dates with base indices 2, 4, 6 (constant
daily rise 2) give acceleration 0 classified flat/normal, and an empty
history with window 1 gives no result. -/
theorem c5_witness :
    calculate_acceleration [(1, ⟨2, 0, []⟩), (2, ⟨4, 0, []⟩), (3, ⟨6, 0, []⟩)] 3
        = some ⟨0, "平稳", "正常"⟩ ∧
      calculate_acceleration [] 1 = none :=
  ⟨c5_insufficient_and_linear.2 _ 3 2 2
      (by show [(2 : ℚ), 4, 6] = linSeq 2 2 3; norm_num [linSeq]),
    (c5_insufficient_and_linear.1 [] 1).mpr (by norm_num)⟩

/-- Witness for C6: a score strictly above 80 is classified critical. -/
theorem c6_witness :
    riskLevel 81 = ("高危", "裁员风险极高，市场异常活跃", "立即关注市场动态，做好应急预案") :=
  ((c6_risk_level_thresholds.1 81).2.1).mpr (by norm_num)

/-- C3: on a history with at least `days` (the program calls with the default
14) recorded dates, the acceleration is the average of the second differences
(length `days − 2`) of the first differences (length `days − 1`) of the last
`days` base-index values in chronological order (the sorted history's final
segment), classified by the exact thresholds 0.5 / 0.1 / −0.1. -/
theorem c3_second_derivative (H : History) (days : ℕ) (hs : HistSorted H)
    (h3 : 3 ≤ days) (hlen : days ≤ H.length) :
    ∀ vals d1 d2 : List ℚ,
      vals = (H.map fun p => p.2.index).drop (H.length - days) →
      d1 = List.zipWith (fun x y => y - x) vals vals.tail →
      d2 = List.zipWith (fun x y => y - x) d1 d1.tail →
      ∃ r, calculate_acceleration H days = some r ∧
        d1.length = days - 1 ∧ d2.length = days - 2 ∧
        r.acceleration = d2.sum / ((days : ℚ) - 2) ∧
        (1/2 < r.acceleration → (r.trend, r.severity) = ("加速上升", "严重")) ∧
        (1/10 < r.acceleration ∧ r.acceleration ≤ 1/2 → (r.trend, r.severity) = ("缓慢上升", "关注")) ∧
        (-(1/10) < r.acceleration ∧ r.acceleration ≤ 1/10 → (r.trend, r.severity) = ("平稳", "正常")) ∧
        (r.acceleration ≤ -(1/10) → (r.trend, r.severity) = ("下降", "好转")) := by
  intro vals d1 d2 hv hd1 hd2
  have hvlen : vals.length = days := by
    rw [hv]
    simp only [List.length_drop, List.length_map]
    omega
  have hd1e : d1 = diffs vals := by rw [hd1, diffs_eq_zipWith]
  have hd2e : d2 = diffs d1 := by rw [hd2, diffs_eq_zipWith]
  have hl1 : d1.length = days - 1 := by rw [hd1e, diffs_length, hvlen]
  have hl2 : d2.length = days - 2 := by
    rw [hd2e, diffs_length, hl1]
    omega
  have hne : d2 ≠ [] := by
    intro hnil
    rw [hnil] at hl2
    simp at hl2
    omega
  have hcast : (d2.length : ℚ) = (days : ℚ) - 2 := by
    rw [hl2, Nat.cast_sub (by omega : 2 ≤ days)]
    norm_num
  unfold calculate_acceleration
  rw [if_neg (not_lt.mpr hlen)]
  dsimp only
  rw [if_neg (by omega : ¬ days = 0)]
  simp only [List.length_map]
  rw [← hv, ← hd1e, ← hd2e, if_neg hne, hcast]
  split_ifs with hA hB hC
  · refine ⟨_, rfl, hl1, hl2, rfl, fun _ => rfl, ?_, ?_, ?_⟩
    · intro hcon
      exfalso
      linarith [hcon.2]
    · intro hcon
      exfalso
      linarith [hcon.2]
    · intro hcon
      exfalso
      linarith
  · refine ⟨_, rfl, hl1, hl2, rfl, ?_, fun _ => rfl, ?_, ?_⟩
    · intro hcon
      exact absurd hcon hA
    · intro hcon
      exfalso
      linarith [hcon.2]
    · intro hcon
      exfalso
      linarith
  · refine ⟨_, rfl, hl1, hl2, rfl, ?_, ?_, fun _ => rfl, ?_⟩
    · intro hcon
      exact absurd hcon hA
    · intro hcon
      exact absurd hcon.1 hB
    · intro hcon
      exfalso
      linarith
  · refine ⟨_, rfl, hl1, hl2, rfl, ?_, ?_, ?_, fun _ => rfl⟩
    · intro hcon
      exact absurd hcon hA
    · intro hcon
      exact absurd hcon.1 hB
    · intro hcon
      exact absurd hcon.1 hC

/-- Witness for C3: three dates with base indices 1, 2, 4 give second
differences [1], acceleration 1, classified accelerating/severe. -/
theorem c3_witness :
    ∃ r, calculate_acceleration [(1, ⟨1, 0, []⟩), (2, ⟨2, 0, []⟩), (3, ⟨4, 0, []⟩)] 3
        = some r ∧ r.acceleration = 1 ∧ (r.trend, r.severity) = ("加速上升", "严重") := by
  obtain ⟨r, hr, hl1, hl2, hacc, himp1, -, -, -⟩ :=
    c3_second_derivative [(1, ⟨1, 0, []⟩), (2, ⟨2, 0, []⟩), (3, ⟨4, 0, []⟩)] 3
      (by simp [HistSorted, keys]) (by norm_num) (by norm_num)
      _ _ _ rfl rfl rfl
  have h1 : r.acceleration = 1 := by
    rw [hacc]
    norm_num [List.zipWith, List.map, List.tail]
  exact ⟨r, hr, h1, himp1 (by rw [h1]; norm_num)⟩

/-- C1 (amended): the final score — the clamped value the program classifies
into a risk level — equals `clamp((base_term + acceleration_term +
historical_term) * seasonal_factor, 0, 100)` with the three terms exactly as
the claim defines them, and the pre-seasonal sum never exceeds 90; the
probability field reported to the caller is that final score rounded to one
decimal place (and therefore not the clamp value itself in general). -/
theorem c1_score_composition (H : History) (t : Date) (pd : ProblemData) (m : ℕ) :
    recessionScore H t pd m =
      min (max ((baseTerm (calculate_weighted_index H t pd).index
          + accTerm (calculate_acceleration H 14)
          + histTerm H (calculate_weighted_index H t pd).index)
        * (analyze_seasonal_pattern m).1) 0) 100 ∧
    (calculate_recession_probability H t pd m).probability
        = pyRound (recessionScore H t pd m) 1 ∧
    baseTerm (calculate_weighted_index H t pd).index
        + accTerm (calculate_acceleration H 14)
        + histTerm H (calculate_weighted_index H t pd).index ≤ 90 := by
  refine ⟨?_, rfl, ?_⟩
  · have hist_eq : ∀ s : ℚ,
        (if 0 < H.length then
          (if 0 < (H.map fun p => p.2.index).sum / (((H.map fun p => p.2.index).length : ℕ) : ℚ) then
            s + min ((calculate_weighted_index H t pd).index
              / ((H.map fun p => p.2.index).sum / (((H.map fun p => p.2.index).length : ℕ) : ℚ)) * 20) 20
          else s)
        else s) = s + histTerm H (calculate_weighted_index H t pd).index := by
      intro s
      unfold histTerm
      dsimp only
      by_cases hH : 0 < H.length
      · have hne : H ≠ [] := List.length_pos.mp hH
        rw [if_pos hH]
        by_cases havg : 0 < (H.map fun p => p.2.index).sum / (((H.map fun p => p.2.index).length : ℕ) : ℚ)
        · rw [if_pos havg, if_pos ⟨hne, havg⟩]
        · rw [if_neg havg, if_neg (fun hc => havg hc.2)]
          ring
      · have hnil : H = [] := by
          cases H
          · rfl
          · simp at hH
        rw [if_neg hH, if_neg (by simp [hnil])]
        ring
    unfold recessionScore baseTerm accTerm
    dsimp only
    rcases hacc : calculate_acceleration H 14 with _ | a
    · dsimp only
      rw [hist_eq]
      ring_nf
    · dsimp only
      by_cases hpos : 0 < a.acceleration
      · simp only [hpos, if_true]
        rw [hist_eq]
      · simp only [hpos, if_false]
        rw [hist_eq]
        ring_nf
  · have h1 : baseTerm (calculate_weighted_index H t pd).index ≤ 40 := min_le_right _ _
    have h2 : accTerm (calculate_acceleration H 14) ≤ 30 := by
      unfold accTerm
      rcases calculate_acceleration H 14 with _ | a
      · norm_num
      · dsimp only
        split_ifs
        · exact min_le_right _ _
        · norm_num
    have h3 : histTerm H (calculate_weighted_index H t pd).index ≤ 20 := by
      unfold histTerm
      dsimp only
      split_ifs
      · exact min_le_right _ _
      · norm_num
    linarith

/-- Counterexample for C1 as stated: with an empty history, one easy problem
(weight 1, 150 total submissions) and month 1, the clamp formula of the claim
evaluates to 1/31250 = 0.000032, but the risk probability returned in the
result is 0 (the score rounded to one decimal place) — so the returned
probability does not equal the clamp value. -/
theorem c1_counterexample :
    (calculate_recession_probability [] 1 ⟨[⟨"two-sum", "两数之和", 1, 150⟩], [], []⟩ 1).probability = 0 ∧
    min (max ((baseTerm (calculate_weighted_index [] 1 ⟨[⟨"two-sum", "两数之和", 1, 150⟩], [], []⟩).index
        + accTerm (calculate_acceleration [] 14)
        + histTerm [] (calculate_weighted_index [] 1 ⟨[⟨"two-sum", "两数之和", 1, 150⟩], [], []⟩).index)
      * (analyze_seasonal_pattern 1).1) 0) 100 = 1/31250 ∧
    (0 : ℚ) ≠ 1/31250 := by
  have hidx : (calculate_weighted_index [] 1 ⟨[⟨"two-sum", "两数之和", 1, 150⟩], [], []⟩).index
      = 1/1000000 := by
    simp [calculate_weighted_index, problem_score, incrementOf, yesterdayTotalOf, lookupH]
  have hacc : calculate_acceleration [] 14 = none := by
    norm_num [calculate_acceleration]
  have hscore : recessionScore [] 1 ⟨[⟨"two-sum", "两数之和", 1, 150⟩], [], []⟩ 1 = 1/31250 := by
    unfold recessionScore
    rw [hacc]
    dsimp only
    rw [hidx]
    norm_num [analyze_seasonal_pattern, min_def, max_def]
  refine ⟨?_, ?_, by norm_num⟩
  · have hp : (calculate_recession_probability [] 1 ⟨[⟨"two-sum", "两数之和", 1, 150⟩], [], []⟩ 1).probability
        = pyRound (recessionScore [] 1 ⟨[⟨"two-sum", "两数之和", 1, 150⟩], [], []⟩ 1) 1 := rfl
    rw [hp, hscore]
    have hf : ⌊(1 : ℚ)/31250 * 10 ^ 1⌋ = 0 := by
      rw [Int.floor_eq_zero_iff]
      constructor <;> norm_num
    unfold pyRound rhe
    rw [hf]
    norm_num
  · rw [hidx, hacc]
    norm_num [baseTerm, accTerm, histTerm, analyze_seasonal_pattern, min_def, max_def]

/-- C2 (amended): the base index is the sum over all problems of
`increment × weight × difficulty_weight` (1.5 hard, 1.2 medium, 1.0 easy)
divided by 1,000,000, where the increment is `today − yesterday` only when a
same-slug snapshot of yesterday exists **and records a strictly positive
total**, and otherwise is the integer floor division
`today.total_submission // 100`. -/
theorem c2_weighted_index (H : History) (t : Date) (pd : ProblemData) :
    (calculate_weighted_index H t pd).index =
      ((pd.easy.map fun p => amended_increment H t p * p.weight * 1).sum
        + (pd.medium.map fun p => amended_increment H t p * p.weight * (6/5)).sum
        + (pd.hard.map fun p => amended_increment H t p * p.weight * (3/2)).sum)
      / 1000000 := by
  have hinc : ∀ p : ProbEntry, amended_increment H t p = (incrementOf H t p : ℚ) := by
    intro p
    unfold amended_increment incrementOf yesterdayTotalOf
    rcases hl : lookupH H (t - 1) with _ | yrec
    · dsimp only
      rw [if_neg (lt_irrefl 0)]
      norm_cast
    · dsimp only
      rcases hf : yrec.problems.find? (fun s => s.slug == p.slug) with _ | s
      · simp only [hf]
        rw [if_neg (lt_irrefl 0)]
        norm_cast
      · simp only [hf]
        by_cases hpos : 0 < s.total_submission
        · rw [if_pos hpos, if_pos hpos]
          push_cast
          ring
        · rw [if_neg hpos, if_neg hpos]
          norm_cast
  unfold calculate_weighted_index problem_score
  dsimp only
  rw [foldl_add_eq, foldl_add_eq, foldl_add_eq]
  simp only [zero_add, ← hinc]

/-- Counterexample for C2 as stated.  First input: yesterday's record holds a
same-slug snapshot with total 0 and today has 150 submissions (weight 1,
easy) — the claim demands increment 150 − 0 = 150 but the code takes the
bootstrap branch 150 // 100 = 1.  Second input: no yesterday record at all —
the claim's true division gives 150/100 = 1.5, the code's floor division
gives 1.  In both cases the code's base index differs from the claim's. -/
theorem c2_counterexample :
    (calculate_weighted_index [(0, ⟨0, 0, [⟨"two-sum", "两数之和", 0⟩]⟩)] 1
        ⟨[⟨"two-sum", "两数之和", 1, 150⟩], [], []⟩).index
      ≠ spec_weighted_index [(0, ⟨0, 0, [⟨"two-sum", "两数之和", 0⟩]⟩)] 1
        ⟨[⟨"two-sum", "两数之和", 1, 150⟩], [], []⟩ ∧
    (calculate_weighted_index [] 1 ⟨[⟨"two-sum", "两数之和", 1, 150⟩], [], []⟩).index
      ≠ spec_weighted_index [] 1 ⟨[⟨"two-sum", "两数之和", 1, 150⟩], [], []⟩ := by
  constructor
  · have h1 : (calculate_weighted_index [(0, ⟨0, 0, [⟨"two-sum", "两数之和", 0⟩]⟩)] 1
        ⟨[⟨"two-sum", "两数之和", 1, 150⟩], [], []⟩).index = 1/1000000 := by
      simp [calculate_weighted_index, problem_score, incrementOf, yesterdayTotalOf, lookupH,
        List.find?]
    have h2 : spec_weighted_index [(0, ⟨0, 0, [⟨"two-sum", "两数之和", 0⟩]⟩)] 1
        ⟨[⟨"two-sum", "两数之和", 1, 150⟩], [], []⟩ = 150/1000000 := by
      simp [spec_weighted_index, spec_increment, lookupH, List.find?]
    rw [h1, h2]
    norm_num
  · have h1 : (calculate_weighted_index [] 1 ⟨[⟨"two-sum", "两数之和", 1, 150⟩], [], []⟩).index
        = 1/1000000 := by
      simp [calculate_weighted_index, problem_score, incrementOf, yesterdayTotalOf, lookupH]
    have h2 : spec_weighted_index [] 1 ⟨[⟨"two-sum", "两数之和", 1, 150⟩], [], []⟩
        = (150/100)/1000000 := by
      simp [spec_weighted_index, spec_increment, lookupH]
    rw [h1, h2]
    norm_num

/-- C7: writing the day's record for a date already present replaces instead
of appending — the history stays sorted with at most one record per date,
the date is present after the cycle, running the cycle twice on the same date
leaves the history size unchanged, and the stored DailyRecord is exactly
determined by the inputs (identical inputs and prior history give the
identical record: rounded base index, rounded probability, the day's
snapshots). -/
theorem c7_overwrite_unique (w1 w2 : Bool) (H : History) (pd1 pd2 : ProblemData)
    (t : Date) (m1 m2 : ℕ) (hs : HistSorted H) :
    HistSorted (collect_and_analyze w1 H pd1 t m1).2.1 ∧
    t ∈ keys (collect_and_analyze w1 H pd1 t m1).2.1 ∧
    ((collect_and_analyze w2 (collect_and_analyze w1 H pd1 t m1).2.1 pd2 t m2).2.1).length
      = ((collect_and_analyze w1 H pd1 t m1).2.1).length ∧
    lookupH (collect_and_analyze w1 H pd1 t m1).2.1 t
      = some ⟨pyRound (calculate_weighted_index H t pd1).index 2,
              pyRound (recessionScore H t pd1 m1) 1, snapshotsOf pd1⟩ :=
  ⟨sorted_insertH _ _ _ hs,
   mem_keys_insertH_self _ _ _,
   length_insertH_mem _ _ _ (sorted_insertH _ _ _ hs) (mem_keys_insertH_self _ _ _),
   lookupH_insertH_self _ _ _⟩

/-- Witness for C7 at the empty prior history, date 1, empty problem data. -/
theorem c7_witness :
    HistSorted (collect_and_analyze true [] ⟨[], [], []⟩ 1 1).2.1 ∧
    1 ∈ keys (collect_and_analyze true [] ⟨[], [], []⟩ 1 1).2.1 ∧
    ((collect_and_analyze true (collect_and_analyze true [] ⟨[], [], []⟩ 1 1).2.1
        ⟨[], [], []⟩ 1 1).2.1).length
      = ((collect_and_analyze true [] ⟨[], [], []⟩ 1 1).2.1).length ∧
    lookupH (collect_and_analyze true [] ⟨[], [], []⟩ 1 1).2.1 1
      = some ⟨pyRound (calculate_weighted_index [] 1 ⟨[], [], []⟩).index 2,
              pyRound (recessionScore [] 1 ⟨[], [], []⟩ 1) 1, snapshotsOf ⟨[], [], []⟩⟩ :=
  c7_overwrite_unique true true [] ⟨[], [], []⟩ ⟨[], [], []⟩ 1 1 1 (by simp [HistSorted, keys])

/-- C8 (amended): a failing durable write is caught inside `save_history` and
only logged — it is not raised or returned to the caller; the in-memory
history after the cycle is identical to the success case (the failed write
corrupts nothing), and the computed RiskResult is still returned. -/
theorem c8_write_failure (H : History) (pd : ProblemData) (t : Date) (m : ℕ) :
    (collect_and_analyze false H pd t m).1 = calculate_recession_probability H t pd m ∧
    (collect_and_analyze false H pd t m).2.1 = (collect_and_analyze true H pd t m).2.1 ∧
    (collect_and_analyze false H pd t m).1 = (collect_and_analyze true H pd t m).1 ∧
    (collect_and_analyze false H pd t m).2.2 = [LogEvent.saveFailed] ∧
    (collect_and_analyze true H pd t m).2.2 = [LogEvent.savedOk] :=
  ⟨rfl, rfl, rfl, rfl, rfl⟩

/-- Counterexample for C8's "the failure is reported to the caller": at a
concrete input the caller-visible outcome of the cycle — the returned
RiskResult and the in-memory history — is identical whether the write failed
or succeeded; the only trace of the failure is the log entry. -/
theorem c8_counterexample :
    (collect_and_analyze false [] ⟨[], [], []⟩ 1 1).1
        = (collect_and_analyze true [] ⟨[], [], []⟩ 1 1).1 ∧
    (collect_and_analyze false [] ⟨[], [], []⟩ 1 1).2.1
        = (collect_and_analyze true [] ⟨[], [], []⟩ 1 1).2.1 ∧
    save_history false (collect_and_analyze false [] ⟨[], [], []⟩ 1 1).2.1
        ≠ save_history true (collect_and_analyze false [] ⟨[], [], []⟩ 1 1).2.1 :=
  ⟨rfl, rfl, by simp [save_history]⟩

/-- C10: the DailyRecord persisted for the day stores the base index rounded
to 2 decimal places and the probability rounded to 1 decimal place — every
later trend or historical-average computation therefore reads these rounded
`index` fields, not the exact values; at the concrete input of one easy
problem with 150 submissions the exact base index 1/1000000 is stored as 0. -/
theorem c10_rounded_persistence :
    (∀ (w : Bool) (H : History) (pd : ProblemData) (t : Date) (m : ℕ),
      lookupH ((collect_and_analyze w H pd t m).2.1) t
        = some ⟨pyRound (calculate_weighted_index H t pd).index 2,
                pyRound (recessionScore H t pd m) 1, snapshotsOf pd⟩) ∧
    (calculate_weighted_index [] 1 ⟨[⟨"two-sum", "两数之和", 1, 150⟩], [], []⟩).index
        = 1/1000000 ∧
    pyRound (1/1000000 : ℚ) 2 = 0 ∧
    ((1 : ℚ)/1000000 ≠ 0) := by
  refine ⟨fun w H pd t m => lookupH_insertH_self _ _ _, ?_, ?_, by norm_num⟩
  · simp [calculate_weighted_index, problem_score, incrementOf, yesterdayTotalOf, lookupH]
  · have hf : ⌊(1 : ℚ)/1000000 * 10 ^ 2⌋ = 0 := by
      rw [Int.floor_eq_zero_iff]
      constructor <;> norm_num
    unfold pyRound rhe
    rw [hf]
    norm_num

end Recession
